import Mathlib

/-
  Verification of the bili-parser repository against its specification.

  The development shallowly embeds the two source files
  `bili_parser/__main__.py` and `bili_parser/_main_win.py`:
  Python strings become Lean `String`, byte strings become `List Nat`
  (each entry one byte of the UTF-8 encoding), Python `int` becomes `Int`
  (or `Nat` where the value is known non-negative), dict-based JSON
  payloads become structures with `Option` fields (`none` models an
  absent key, so that `dict.get(key, default)` becomes `Option.getD`),
  and the HTTP world is an explicit environment record holding the
  response each `requests.get` call would observe.
-/

/-! ## Generic list machinery (Python substring primitives) -/

/-- Boolean test that `pat` is a prefix of `xs`. -/
def isPrefixL [DecidableEq α] : List α → List α → Bool
  | [], _ => true
  | _ :: _, [] => false
  | a :: ps, b :: xs => if a = b then isPrefixL ps xs else false

/-- Python `bytes.find` / `str.find`: index of the first occurrence of
`pat` in `hay`, `-1` when there is none (and `0` for the empty pattern). -/
def findSub [DecidableEq α] : List α → List α → Int
  | [], pat => if isPrefixL pat [] then 0 else -1
  | a :: t, pat =>
    if isPrefixL pat (a :: t) then 0
    else
      let r := findSub t pat
      if r = -1 then -1 else r + 1

/-- Python `in` on strings/bytes: `pat` occurs somewhere in `hay`. -/
def containsSub [DecidableEq α] : List α → List α → Bool
  | [], pat => isPrefixL pat []
  | a :: t, pat => isPrefixL pat (a :: t) || containsSub t pat

theorem isPrefixL_nil [DecidableEq α] (xs : List α) : isPrefixL ([] : List α) xs = true := by
  cases xs <;> rfl

theorem isPrefixL_iff_append [DecidableEq α] (ps xs : List α) :
    isPrefixL ps xs = true ↔ ∃ t, xs = ps ++ t := by
  induction ps generalizing xs with
  | nil => simp [isPrefixL_nil]
  | cons a ps ih =>
    cases xs with
    | nil =>
      constructor
      · intro h
        simp [isPrefixL] at h
      · rintro ⟨t, ht⟩
        simp at ht
    | cons b xs =>
      constructor
      · intro h
        rw [isPrefixL] at h
        split at h
        · next hab =>
          subst hab
          rcases (ih xs).1 h with ⟨t, rfl⟩
          exact ⟨t, rfl⟩
        · cases h
      · rintro ⟨t, ht⟩
        rw [List.cons_append] at ht
        injection ht with h1 h2
        subst h1
        subst h2
        rw [isPrefixL, if_pos rfl]
        exact (ih _).2 ⟨t, rfl⟩

theorem isPrefixL_append_right [DecidableEq α] {ps xs : List α} (ys : List α)
    (h : isPrefixL ps xs = true) : isPrefixL ps (xs ++ ys) = true := by
  rcases (isPrefixL_iff_append ps xs).1 h with ⟨t, rfl⟩
  exact (isPrefixL_iff_append _ _).2 ⟨t ++ ys, by simp⟩

theorem isPrefixL_append_left [DecidableEq α] {ps xs : List α} (ys : List α)
    (h : ps.length ≤ xs.length) : isPrefixL ps (xs ++ ys) = isPrefixL ps xs := by
  induction ps generalizing xs with
  | nil => simp [isPrefixL_nil]
  | cons a ps ih =>
    cases xs with
    | nil => simp at h
    | cons b xs =>
      simp only [List.cons_append, isPrefixL]
      by_cases hab : a = b
      · simp only [if_pos hab]
        exact ih (by simpa using h)
      · simp [if_neg hab]

theorem containsSub_of_isPrefixL [DecidableEq α] {xs ps : List α}
    (h : isPrefixL ps xs = true) : containsSub xs ps = true := by
  cases xs with
  | nil => simpa [containsSub] using h
  | cons a t => simp [containsSub, h]

theorem containsSub_append_left [DecidableEq α] {xs ps : List α} (ys : List α)
    (h : containsSub xs ps = true) : containsSub (xs ++ ys) ps = true := by
  induction xs with
  | nil =>
    rw [containsSub] at h
    rcases (isPrefixL_iff_append ps []).1 h with ⟨t, ht⟩
    have hps : ps = [] := by
      cases ps with
      | nil => rfl
      | cons c cs => simp at ht
    subst hps
    exact containsSub_of_isPrefixL (isPrefixL_nil _)
  | cons a t ih =>
    rw [containsSub, Bool.or_eq_true] at h
    rw [List.cons_append, containsSub, Bool.or_eq_true]
    rcases h with h | h
    · exact Or.inl (isPrefixL_append_right ys h)
    · exact Or.inr (ih h)

/-- An occurrence of `ps` in `xs` gives containment. -/
theorem containsSub_of_middle [DecidableEq α] (pre post ps : List α) :
    containsSub (pre ++ ps ++ post) ps = true := by
  induction pre with
  | nil =>
    rw [List.nil_append]
    apply containsSub_of_isPrefixL
    exact (isPrefixL_iff_append _ _).2 ⟨post, rfl⟩
  | cons a t ih =>
    rw [List.cons_append, List.cons_append, containsSub, Bool.or_eq_true]
    right
    exact ih

/-- `findSub` returns the least occurrence index. -/
theorem findSub_eq_of_least [DecidableEq α] {hay pat : List α} {n : Nat}
    (hocc : isPrefixL pat (hay.drop n) = true)
    (hmin : ∀ m < n, isPrefixL pat (hay.drop m) = false) :
    findSub hay pat = (n : Int) := by
  induction n generalizing hay with
  | zero =>
    rw [List.drop_zero] at hocc
    cases hay with
    | nil => simp [findSub, hocc]
    | cons a t => simp [findSub, hocc]
  | succ n ih =>
    have h0 : isPrefixL pat hay = false := by simpa using hmin 0 (Nat.succ_pos _)
    cases hay with
    | nil =>
      rw [List.drop_nil] at hocc
      rw [hocc] at h0
      cases h0
    | cons a t =>
      rw [findSub, if_neg (by simp [h0])]
      have ht : findSub t pat = (n : Int) := by
        apply ih
        · simpa using hocc
        · intro m hm
          simpa using hmin (m + 1) (by omega)
      simp only [ht]
      rw [if_neg (by omega)]
      omega

/-- If `pat` occurs nowhere (at no drop position), `findSub` is `-1`. -/
theorem findSub_eq_neg_one [DecidableEq α] {hay pat : List α}
    (h : ∀ m, isPrefixL pat (hay.drop m) = false) :
    findSub hay pat = -1 := by
  induction hay with
  | nil =>
    have h0 := h 0
    rw [List.drop_nil] at h0
    simp [findSub, h0]
  | cons a t ih =>
    have h0 : isPrefixL pat (a :: t) = false := by simpa using h 0
    rw [findSub, if_neg (by simp [h0])]
    rw [ih (fun m => by simpa using h (m + 1))]
    rfl

/-! ## Python string helpers -/

/-- Character set stripped by Python `str.strip()` (Unicode whitespace per
`str.isspace`, restricted to the code points that can occur here). -/
def pySpace (c : Char) : Bool :=
  c = ' ' || c = '\t' || c = '\n' || c = '\r' ||
  c.toNat = 11 || c.toNat = 12 ||
  (28 ≤ c.toNat && c.toNat ≤ 31) || c.toNat = 133 || c.toNat = 160 ||
  c.toNat = 5760 || (8192 ≤ c.toNat && c.toNat ≤ 8202) ||
  c.toNat = 8232 || c.toNat = 8233 || c.toNat = 8239 || c.toNat = 8287 ||
  c.toNat = 12288

/-- Python `str.strip()`: remove leading and trailing whitespace. -/
def pyStrip (s : String) : String :=
  String.mk (((s.data.dropWhile pySpace).reverse.dropWhile pySpace).reverse)

/-- Python `str.startswith(p)`. -/
def pyStartsWith (s p : String) : Bool := isPrefixL p.data s.data

/-- Python `str.endswith(p)`. -/
def pyEndsWith (s p : String) : Bool := isPrefixL p.data.reverse s.data.reverse

/-- Python `needle in hay` on strings. -/
def pyIn (needle hay : String) : Bool := containsSub hay.data needle.data

/-- Worker for Python `str.replace` (fuel-based so it reduces by `decide`;
the fuel is always sufficient because each step consumes at least one
character of the subject when the pattern is non-empty). -/
def replaceGo (pat rep : List Char) : Nat → List Char → List Char
  | 0, s => s
  | _ + 1, [] => []
  | fuel + 1, a :: t =>
    if isPrefixL pat (a :: t) then rep ++ replaceGo pat rep fuel ((a :: t).drop pat.length)
    else a :: replaceGo pat rep fuel t

/-- Python `s.replace(pat, rep)` (all non-overlapping occurrences, left to
right; for the empty pattern Python inserts `rep` around every character). -/
def pyReplace (s pat rep : String) : String :=
  if pat.data.isEmpty then
    String.mk (rep.data ++ s.data.flatMap (fun c => c :: rep.data))
  else
    String.mk (replaceGo pat.data rep.data (s.data.length + 1) s.data)

/-! ## Decimal rendering (Python `str(int)` and zero-padded formats) -/

/-- The character of a decimal digit. -/
def digitChar (d : Nat) : Char :=
  if d = 0 then '0' else if d = 1 then '1' else if d = 2 then '2'
  else if d = 3 then '3' else if d = 4 then '4' else if d = 5 then '5'
  else if d = 6 then '6' else if d = 7 then '7' else if d = 8 then '8' else '9'

/-- Numeric value of a digit character. -/
def digitVal (c : Char) : Nat := c.toNat - 48

/-- Decimal digits of a natural number, most significant first (fuel-based). -/
def natDigitsGo : Nat → Nat → List Char
  | 0, _ => []
  | fuel + 1, n =>
    if n < 10 then [digitChar n]
    else natDigitsGo fuel (n / 10) ++ [digitChar (n % 10)]

/-- Decimal digits of a natural number, most significant first. -/
def natDigits (n : Nat) : List Char := natDigitsGo (n + 1) n

/-- Value denoted by a digit list (left fold, base 10). -/
def digitsVal (ds : List Char) : Nat := ds.foldl (fun a c => a * 10 + digitVal c) 0

/-- Python `str(n)` for `n : Int`. -/
def pyIntStr (n : Int) : String :=
  if n < 0 then "-" ++ String.mk (natDigits n.natAbs) else String.mk (natDigits n.toNat)

theorem digitVal_digitChar {d : Nat} (h : d < 10) : digitVal (digitChar d) = d := by
  interval_cases d <;> decide

theorem digitChar_mem_range (d : Nat) : 48 ≤ (digitChar d).toNat ∧ (digitChar d).toNat ≤ 57 := by
  by_cases h : d < 10
  · interval_cases d <;> decide
  · have hd : digitChar d = '9' := by
      unfold digitChar
      push_neg at h
      repeat rw [if_neg (by omega)]
    rw [hd]
    decide

theorem natDigitsGo_ne_nil {fuel n : Nat} (h : 0 < fuel) : natDigitsGo fuel n ≠ [] := by
  cases fuel with
  | zero => omega
  | succ fuel =>
    rw [natDigitsGo]
    split
    · simp
    · simp

theorem natDigitsGo_mem {fuel n : Nat} {c : Char} (h : c ∈ natDigitsGo fuel n) :
    48 ≤ c.toNat ∧ c.toNat ≤ 57 := by
  induction fuel generalizing n with
  | zero => cases h
  | succ fuel ih =>
    rw [natDigitsGo] at h
    split at h
    · rcases List.mem_singleton.1 h with rfl
      exact digitChar_mem_range n
    · rcases List.mem_append.1 h with h | h
      · exact ih h
      · rcases List.mem_singleton.1 h with rfl
        exact digitChar_mem_range (n % 10)

theorem digitsVal_append_singleton (ds : List Char) (c : Char) :
    digitsVal (ds ++ [c]) = digitsVal ds * 10 + digitVal c := by
  simp [digitsVal, List.foldl_append]

theorem digitsVal_natDigitsGo {fuel n : Nat} (h : n < fuel) :
    digitsVal (natDigitsGo fuel n) = n := by
  induction fuel generalizing n with
  | zero => omega
  | succ fuel ih =>
    rw [natDigitsGo]
    split
    · next h10 =>
      simp [digitsVal, digitVal_digitChar h10]
    · next h10 =>
      push_neg at h10
      rw [digitsVal_append_singleton, ih (by omega), digitVal_digitChar (Nat.mod_lt _ (by omega))]
      omega

theorem digitsVal_natDigits (n : Nat) : digitsVal (natDigits n) = n :=
  digitsVal_natDigitsGo (Nat.lt_succ_self n)

theorem natDigitsGo_length_le {fuel n k : Nat} (hf : n < fuel) (hk : 1 ≤ k)
    (h : n < 10 ^ k) : (natDigitsGo fuel n).length ≤ k := by
  induction fuel generalizing n k with
  | zero => omega
  | succ fuel ih =>
    rw [natDigitsGo]
    split
    · simpa using hk
    · next h10 =>
      push_neg at h10
      have hk2 : 2 ≤ k := by
        by_contra hlt
        have hk1 : k = 1 := by omega
        subst hk1
        simp at h
        omega
      have hdiv : n / 10 < 10 ^ (k - 1) := by
        have hpow : 10 ^ (k - 1) * 10 = 10 ^ k := by
          rw [← pow_succ]
          congr 1
          omega
        omega
      have hfuel : n / 10 < fuel := by
        have := Nat.div_lt_self (show 0 < n by omega) (show 1 < 10 by omega)
        omega
      have hlen := ih hfuel (k := k - 1) (by omega) hdiv
      simp only [List.length_append, List.length_singleton]
      omega

theorem natDigits_length_le {n k : Nat} (hk : 1 ≤ k) (h : n < 10 ^ k) :
    (natDigits n).length ≤ k :=
  natDigitsGo_length_le (Nat.lt_succ_self n) hk h

theorem natDigits_ne_nil (n : Nat) : natDigits n ≠ [] :=
  natDigitsGo_ne_nil (Nat.succ_pos n)

/-- `String.mk (natDigits n) = "0"` exactly when `n = 0`. -/
theorem natDigits_eq_zero_iff (n : Nat) : String.mk (natDigits n) = "0" ↔ n = 0 := by
  constructor
  · intro h
    have hds : natDigits n = ['0'] := by
      have hd := congrArg String.data h
      simpa using hd
    have hv := digitsVal_natDigits n
    rw [hds] at hv
    simpa [digitsVal, digitVal] using hv.symm
  · intro h
    subst h
    rfl

/-! ## UTF-8 encoding (Python `str.encode("utf-8")`) -/

/-- UTF-8 bytes of one code point. -/
def charUtf8 (c : Char) : List Nat :=
  let n := c.toNat
  if n < 128 then [n]
  else if n < 2048 then [192 + n / 64, 128 + n % 64]
  else if n < 65536 then [224 + n / 4096, 128 + (n / 64) % 64, 128 + n % 64]
  else [240 + n / 262144, 128 + (n / 4096) % 64, 128 + (n / 64) % 64, 128 + n % 64]

/-- UTF-8 bytes of a character list. -/
def utf8L (l : List Char) : List Nat := (l.map charUtf8).flatten

/-- UTF-8 bytes of a string. -/
def strUtf8 (s : String) : List Nat := utf8L s.data

theorem strData_append (a b : String) : (a ++ b).data = a.data ++ b.data := by
  cases a
  cases b
  rfl

theorem utf8L_append (a b : List Char) : utf8L (a ++ b) = utf8L a ++ utf8L b := by
  simp [utf8L]

theorem strUtf8_append (a b : String) : strUtf8 (a ++ b) = strUtf8 a ++ strUtf8 b := by
  simp [strUtf8, strData_append, utf8L_append]

theorem charUtf8_ascii {c : Char} (h : c.toNat < 128) : charUtf8 c = [c.toNat] := by
  rw [charUtf8]
  simp [h]

theorem utf8L_length_ascii {l : List Char} (h : ∀ c ∈ l, c.toNat < 128) :
    (utf8L l).length = l.length := by
  induction l with
  | nil => rfl
  | cons c t ih =>
    rw [show utf8L (c :: t) = charUtf8 c ++ utf8L t from by simp [utf8L]]
    rw [List.length_append, charUtf8_ascii (h c (by simp)), ih (fun x hx => h x (by simp [hx]))]
    simp
    omega

/-! ## `bili_parser/_main_win.py`: CF_HTML clipboard payload builder

Faithful to the source file as it stands: in the source every escape in
`_prepare_cf_html` is written with a doubled backslash, so the header
separator is the literal four-character text backslash-r-backslash-n,
not a CRLF pair.  The offsets arithmetic is unaffected. -/

def cf_version : String := "Version:0.9"

def start_html_offset_marker : String := "StartHTML:"

def end_html_offset_marker : String := "EndHTML:"

def start_fragment_offset_marker : String := "StartFragment:"

def end_fragment_offset_marker : String := "EndFragment:"

def html_fragment (html_content : String) : String :=
  "<!--StartFragment-->" ++ html_content ++ "<!--EndFragment-->"

def full_html (html_content : String) : String :=
  "<html><body>" ++ html_fragment html_content ++ "</body></html>"

def dummy_offset : String := "0000000000"

def full_html_utf8 (html_content : String) : List Nat := strUtf8 (full_html html_content)

def header_prefix_for_html_offset : String :=
  cf_version ++ "\\r\\n" ++
  start_html_offset_marker ++ dummy_offset ++ "\\r\\n" ++
  end_html_offset_marker ++ dummy_offset ++ "\\r\\n" ++
  start_fragment_offset_marker ++ dummy_offset ++ "\\r\\n" ++
  end_fragment_offset_marker ++ dummy_offset ++ "\\r\\n"

def start_html_offset : Int := ((strUtf8 header_prefix_for_html_offset).length : Int)

def end_html_offset (html_content : String) : Int :=
  start_html_offset + ((full_html_utf8 html_content).length : Int)

def start_fragment_offset (html_content : String) : Int :=
  start_html_offset + findSub (full_html_utf8 html_content) (strUtf8 "<!--StartFragment-->")

def end_fragment_offset (html_content : String) : Int :=
  start_html_offset + findSub (full_html_utf8 html_content) (strUtf8 "<!--EndFragment-->") +
    ((strUtf8 "<!--EndFragment-->").length : Int)

/-- Python `f"{n:010d}"` (zero pad to total width 10, sign included). -/
def pyFormat010d (n : Int) : String :=
  if n < 0 then
    "-" ++ String.mk (List.replicate (9 - (natDigits n.natAbs).length) '0' ++ natDigits n.natAbs)
  else
    String.mk (List.replicate (10 - (natDigits n.toNat).length) '0' ++ natDigits n.toNat)

def cf_header (html_content : String) : String :=
  cf_version ++ "\\r\\n" ++
  start_html_offset_marker ++ pyFormat010d start_html_offset ++ "\\r\\n" ++
  end_html_offset_marker ++ pyFormat010d (end_html_offset html_content) ++ "\\r\\n" ++
  start_fragment_offset_marker ++ pyFormat010d (start_fragment_offset html_content) ++ "\\r\\n" ++
  end_fragment_offset_marker ++ pyFormat010d (end_fragment_offset html_content) ++ "\\r\\n"

/-- `_prepare_cf_html`: the final clipboard payload, as UTF-8 bytes. -/
def prepare_cf_html (html_content : String) : List Nat :=
  strUtf8 (cf_header html_content) ++ full_html_utf8 html_content

/-! ## `bili_parser/_main_win.py`: image re-encode loop

The PNG encoder itself is the external image library; it enters the model
as an oracle `encSize w h` giving the PNG byte size the library would
produce at dimensions `w × h`.  `int(x * 0.8)` on the Python side equals
`x * 4 / 5` in exact integer arithmetic for every dimension a real image
can have, and the guard `x * 0.8 >= 100` likewise coincides with
`x * 4 / 5 >= 100` (both mean `x >= 125`), so the factor 0.8 is modelled
as multiplication by 4 followed by division by 5. -/

def MAX_IMAGE_SIZE_BYTES : Nat := 5 * 1024 * 1024

def MIN_DIMENSION : Nat := 100

/-- One application of the resize factor 0.8 to a dimension. -/
def shrinkDim (w : Nat) : Nat := w * 4 / 5

/-- The `while` guard of the resize loop in `load_image`. -/
def resizeGuard (encSize : Nat → Nat → Nat) (w h : Nat) : Bool :=
  decide (MAX_IMAGE_SIZE_BYTES < encSize w h) &&
  decide (MIN_DIMENSION ≤ shrinkDim w) && decide (MIN_DIMENSION ≤ shrinkDim h)

/-- Fuel-based body of the resize loop (the fuel is always sufficient:
the width strictly decreases whenever the guard holds). -/
def resizeGo (encSize : Nat → Nat → Nat) : Nat → Nat → Nat → Nat × Nat
  | 0, w, h => (w, h)
  | fuel + 1, w, h =>
    if resizeGuard encSize w h then resizeGo encSize fuel (shrinkDim w) (shrinkDim h)
    else (w, h)

/-- The resize loop of `load_image`: from initial dimensions to the
dimensions held when the loop exits. -/
def resize_loop (encSize : Nat → Nat → Nat) (w h : Nat) : Nat × Nat :=
  resizeGo encSize (w + 1) w h

/-- After the loop, `load_image` proceeds unconditionally (a size still
above budget only prints a warning): the function always reaches the
base64 return with the final dimensions. -/
def load_image_final (encSize : Nat → Nat → Nat) (w h : Nat) : Option (Nat × Nat) :=
  some (resize_loop encSize w h)

/-- `k`-fold application of the shrink factor. -/
def shrinkIter : Nat → Nat → Nat
  | 0, w => w
  | k + 1, w => shrinkIter k (shrinkDim w)

/-! ## `bili_parser/segment.py` data model -/

/-- Modelled from the spec: the repository imports `Text` and `Image`
from a `bili_parser/segment.py` module that is not present under the
given sources; per the spec a Segment is the tagged union
Text(string) | Image(url-or-data-string). -/
inductive Segment
  | Text (s : String)
  | Image (s : String)
deriving DecidableEq

/-- Result of `parse_bili`: either an error string or the 3-tuple of
segments the Python function returns. -/
inductive ParseResult
  | err (s : String)
  | segs (s1 s2 s3 : Segment)
deriving DecidableEq

/-! ## `bili_parser/__main__.py`: helpers

The source file stores its own UTF-8 bytes double-decoded (each byte of
the intended CJK/emoji text appears as one Latin-1/CP1254 character), so
every non-ASCII literal below reproduces, character for character, holds
of the file exactly as the Python parser reads it. -/

/-- The ten-thousands unit suffix literal of `format_number`. -/
def wan_unit : String := "ä¸‡"

/-- Argument type of `format_number` (`num: int | str`). -/
inductive PyNum
  | int (n : Int)
  | str (s : String)
deriving DecidableEq

/-- Rounding of `m / 1000` to the nearest integer, ties to even: the
model of rendering `m / 10000` with Python `.1f` (Python formats the
quotient with round-half-to-even; the perturbation of exact ties by
binary floating point is abstracted away). -/
def roundTenthsHE (m : Nat) : Nat :=
  let q := m / 1000
  let r := m % 1000
  if r < 500 then q else if 500 < r then q + 1 else if q % 2 = 0 then q else q + 1

/-- `f"{(num / 10000):.1f}"` followed by the unit, for `num >= 10000`. -/
def formatWan (n : Int) : String :=
  let r := roundTenthsHE n.toNat
  String.mk (natDigits (r / 10)) ++ "." ++ String.mk (natDigits (r % 10)) ++ wan_unit

/-- `format_number` from `__main__.py`. -/
def format_number : PyNum → String
  | .str s => s
  | .int n => if 10000 ≤ n then formatWan n else pyIntStr n

/-- The character class `[a-zA-Z0-9]` of the BVID regex. -/
def pyAlnum (c : Char) : Bool :=
  ('a' ≤ c && c ≤ 'z') || ('A' ≤ c && c ≤ 'Z') || ('0' ≤ c && c ≤ '9')

/-- The pattern `BV[a-zA-Z0-9]` matches at the head of the list. -/
def bvAt : List Char → Bool
  | a :: b :: c :: _ => a = 'B' && b = 'V' && pyAlnum c
  | _ => false

/-- `re.search(r"BV([a-zA-Z0-9]+)", url)` then `group(0)`: scan left to
right for the first position where `B`, `V` and an alphanumeric follow,
and return `BV` plus the maximal alphanumeric run from there. -/
def searchBV : List Char → Option (List Char)
  | [] => none
  | a :: t =>
    if bvAt (a :: t) then some ('B' :: 'V' :: (t.drop 1).takeWhile pyAlnum)
    else searchBV t

/-- `extract_bvid_from_url` from `__main__.py`. -/
def extract_bvid_from_url (url : String) : Option String :=
  if url = "" then none
  else (searchBV url.data).map String.mk

/-! ## `bili_parser/__main__.py`: HTTP environment -/

/-- The observable part of the `requests` response used by
`resolve_b23_url`: status code and optional `Location` header
(`none` models an absent header; Python reads a present-but-empty
header as the empty string, which the code treats as falsy). -/
structure HttpResp where
  status : Int
  location : Option String

/-- Outcome of one metadata fetch (`requests.get` + `raise_for_status` +
`.json()` + dictionary access): a `requests.RequestException`, a
`json.JSONDecodeError`, any other exception (the bare `except Exception`
arm), or a parsed payload. -/
inductive Fetched (α : Type)
  | netErr (e : String)
  | jsonErr (e : String)
  | exc (e : String)
  | ok (v : α)

/-- Fields read from `data.stat` of the view API payload. -/
structure ViewStat where
  view : Option Int
  danmaku : Option Int
  like : Option Int
  coin : Option Int
  favorite : Option Int
  share : Option Int

/-- Fields read from `data.owner` of the view API payload. -/
structure ViewOwner where
  name : Option String
  mid : Option Int

/-- Fields read from `data` of the view API payload. -/
structure ViewData where
  title : Option String
  desc : Option String
  pic : Option String
  owner : Option ViewOwner
  cid : Option Int
  stat : Option ViewStat

/-- The view API payload (`view_data`). -/
structure ViewResp where
  code : Option Int
  data : Option ViewData

/-- Fields read from `data` of the relation API payload. -/
structure RelData where
  follower : Option Int

/-- The relation API payload (`relation_data`). -/
structure RelResp where
  code : Option Int
  data : Option RelData

/-- Fields read from `data` of the online API payload. -/
structure OnlineData where
  total : Option Int
  web_online : Option Int
  count : Option Int

/-- The online API payload (`online_data`); `data = none` models an
absent, null or empty (hence falsy) `data` member. -/
structure OnlineResp where
  code : Option Int
  data : Option OnlineData

/-- One run's HTTP world: the response each of the four `requests.get`
call sites would observe. -/
structure Env where
  resolve : Except String HttpResp
  view : Fetched ViewResp
  relation : Fetched RelResp
  online : Fetched OnlineResp

/-! ## `bili_parser/__main__.py`: `resolve_b23_url` -/

/-- The cleaning applied to a `Location` header: cut at the first `?`
(`location.find('?')` plus slicing leaves the text before the first `?`,
or everything when there is none), then drop one trailing `/`. -/
def cleanLocation (loc : String) : String :=
  let afterQuery := String.mk (loc.data.takeWhile (fun c => c ≠ '?'))
  if pyEndsWith afterQuery "/" then String.mk afterQuery.data.dropLast else afterQuery

/-- `resolve_b23_url` from `__main__.py`. -/
def resolve_b23_url (env : Env) (short_url_input : String) : Option String :=
  let target_b23_url :=
    if pyStartsWith short_url_input "http" then short_url_input
    else "https://" ++ short_url_input
  if pyIn "b23.tv/" target_b23_url = false then some short_url_input
  else
    match env.resolve with
    | .error _ => none
    | .ok response =>
      if response.status = 301 ∨ response.status = 302 then
        match response.location with
        | some location => if location = "" then none else some (cleanLocation location)
        | none => none
      else none

/-! ## `bili_parser/__main__.py`: `parse_bili` -/

/-- The short-link heuristic guarding Step 1 of `parse_bili`. -/
def b23_heuristic (url_input : String) : Bool :=
  pyIn "b23.tv/" url_input ||
    (!pyStartsWith url_input "BV" && !pyIn "bilibili.com" url_input &&
     decide (url_input.length < 15) &&
     (!url_input.data.isEmpty && url_input.data.all pyAlnum))

/-- The candidate short link handed to `resolve_b23_url`. -/
def potential_b23_url (url_input : String) : String :=
  if pyIn "b23.tv/" url_input then url_input else "https://b23.tv/" ++ url_input

/-- The error string returned when a definite b23 link fails to resolve. -/
def b23_error_msg (potential : String) : String :=
  "Error: Failed to resolve b23.tv short link: " ++ potential

/-- Step 1 of `parse_bili`: either the processed URL, or the b23 error. -/
def resolveStep (env : Env) (url_input : String) : Except String String :=
  if b23_heuristic url_input then
    let potential := potential_b23_url url_input
    match resolve_b23_url env potential with
    | some resolved =>
      if resolved ≠ "" then .ok resolved
      else if pyIn "b23.tv/" potential then .error (b23_error_msg potential)
      else .ok url_input
    | none =>
      if pyIn "b23.tv/" potential then .error (b23_error_msg potential)
      else .ok url_input
  else .ok url_input

/-- The `video_info` record of `parse_bili`. -/
structure VideoInfo where
  title : String
  upName : String
  upMid : Option Int
  upFans : String
  pic : String
  views : String
  danmaku : String
  likes : String
  coins : String
  favorites : String
  shares : String
  description : String
  watchingTotal : String
  watchingWeb : String
  cleanedUrl : String
  cid : Option Int
  bvid : String

/-- The sentinel-initialised `video_info`. -/
def init_video_info (bvid : String) : VideoInfo :=
  { title := "N/A", upName := "N/A", upMid := none, upFans := "N/A", pic := "N/A",
    views := "N/A", danmaku := "N/A", likes := "N/A", coins := "N/A",
    favorites := "N/A", shares := "N/A", description := "N/A",
    watchingTotal := "N/A", watchingWeb := "N/A",
    cleanedUrl := "https://www.bilibili.com/video/" ++ bvid, cid := none, bvid := bvid }

def emptyViewData : ViewData := ⟨none, none, none, none, none, none⟩

def emptyOwner : ViewOwner := ⟨none, none⟩

def emptyStat : ViewStat := ⟨none, none, none, none, none, none⟩

def emptyRelData : RelData := ⟨none⟩

/-- Effect of a parsed view API payload on `video_info`. -/
def apply_view (vi : VideoInfo) (vr : ViewResp) : VideoInfo :=
  if vr.code = some 0 then
    let data := vr.data.getD emptyViewData
    let stat := data.stat.getD emptyStat
    let owner := data.owner.getD emptyOwner
    { vi with
      title := data.title.getD "N/A"
      description := data.desc.getD "N/A"
      pic := data.pic.getD "N/A"
      upName := owner.name.getD "N/A"
      upMid := owner.mid
      cid := data.cid
      views := format_number (.int (stat.view.getD 0))
      danmaku := format_number (.int (stat.danmaku.getD 0))
      likes := format_number (.int (stat.like.getD 0))
      coins := format_number (.int (stat.coin.getD 0))
      favorites := format_number (.int (stat.favorite.getD 0))
      shares := format_number (.int (stat.share.getD 0)) }
  else vi

/-- Python truthiness of the optional ints `upMid` / `cid` (absent, null
and zero are all falsy). -/
def pyTruthyOptInt : Option Int → Bool
  | none => false
  | some m => m ≠ 0

/-- Effect of a parsed relation API payload on `video_info`. -/
def apply_relation (vi : VideoInfo) (rr : RelResp) : VideoInfo :=
  if rr.code = some 0 then
    { vi with upFans := format_number (.int ((rr.data.getD emptyRelData).follower.getD 0)) }
  else vi

/-- Effect of a parsed online API payload on `video_info`. -/
def apply_online (vi : VideoInfo) (orr : OnlineResp) : VideoInfo :=
  match orr.data with
  | some d =>
    if orr.code = some 0 then
      { vi with
        watchingTotal := format_number (.int (d.total.getD 0))
        watchingWeb :=
          match d.web_online with
          | some w => format_number (.int w)
          | none =>
            match d.count with
            | some c => format_number (.int c)
            | none => "N/A" }
    else vi
  | none => vi

def net_error_msg (e : String) : String :=
  "Error: Network request failed during API call - " ++ e

def json_error_msg (e : String) : String :=
  "Error: Failed to decode JSON response from API - " ++ e

def unexpected_error_msg (e : String) : String :=
  "Error: An unexpected error occurred - " ++ e

/-- The error string a failed fetch outcome is converted into (the three
`except` arms at the end of the `try` block), `none` for a success. -/
def fetchErrMsg {α : Type} : Fetched α → Option String
  | .netErr e => some (net_error_msg e)
  | .jsonErr e => some (json_error_msg e)
  | .exc e => some (unexpected_error_msg e)
  | .ok _ => none

/-- Fetch 2 (follower count), guarded by `if video_info['upMid']:`. -/
def fetch_relation_step (env : Env) (vi : VideoInfo) : Except String VideoInfo :=
  if pyTruthyOptInt vi.upMid then
    match env.relation with
    | .netErr e => .error (net_error_msg e)
    | .jsonErr e => .error (json_error_msg e)
    | .exc e => .error (unexpected_error_msg e)
    | .ok rr => .ok (apply_relation vi rr)
  else .ok vi

/-- Fetch 3 (online viewers), guarded by `if video_info['cid']:`. -/
def fetch_online_step (env : Env) (vi : VideoInfo) : Except String VideoInfo :=
  if pyTruthyOptInt vi.cid then
    match env.online with
    | .netErr e => .error (net_error_msg e)
    | .jsonErr e => .error (json_error_msg e)
    | .exc e => .error (unexpected_error_msg e)
    | .ok orr => .ok (apply_online vi orr)
  else .ok vi

/-- Step 3 of `parse_bili`: the three sequential fetches inside the
`try` block, each exception arm converted to its error string. -/
def fetchPhase (env : Env) (bvid : String) : Except String VideoInfo :=
  match env.view with
  | .netErr e => .error (net_error_msg e)
  | .jsonErr e => .error (json_error_msg e)
  | .exc e => .error (unexpected_error_msg e)
  | .ok vr =>
    match fetch_relation_step env (apply_view (init_video_info bvid) vr) with
    | .error e => .error e
    | .ok vi2 => fetch_online_step env vi2

/-! ## `bili_parser/__main__.py`: Step 4 output formatting -/

/-- `up_fans_text` (the follower-count clause of the uploader line). -/
def up_fans_text (vi : VideoInfo) : String :=
  if vi.upFans ≠ "N/A" ∧ vi.upFans ≠ "0" then
    " ç²‰ä¸: " ++ vi.upFans
  else ""

/-- `watching_web_text` (web-viewer clause). -/
def watching_web_text (vi : VideoInfo) : String :=
  if vi.watchingWeb ≠ "N/A" ∧ vi.watchingWeb ≠ "0" then
    "ï¼Œ" ++ vi.watchingWeb ++
      " äººåœ¨ç½‘é¡µç«¯è§‚çœ‹"
  else ""

/-- `watching_total_text` (viewer summary line). -/
def watching_total_text (vi : VideoInfo) : String :=
  if vi.watchingTotal ≠ "N/A" ∧ vi.watchingTotal ≠ "0" then
    "ğŸ„â€â™‚ï¸ æ€»å…± " ++
      vi.watchingTotal ++
      " äººåœ¨è§‚çœ‹" ++
      watching_web_text vi
  else ""

/-- `text_to_copy_1`: title line plus uploader line, stripped. -/
def text_to_copy_1 (vi : VideoInfo) : String :=
  pyStrip ("æ ‡é¢˜: " ++ vi.title ++
    "\nUPä¸»: " ++ vi.upName ++ up_fans_text vi)

/-- `text_to_copy_2`: the six stat lines, description, viewer summary
and cleaned URL, stripped. -/
def text_to_copy_2 (vi : VideoInfo) : String :=
  pyStrip ("ğŸ‘€æ’­æ”¾: " ++ vi.views ++
    " ğŸ’¬å¼¹å¹•: " ++ vi.danmaku ++
    "\nğŸ‘ç‚¹èµ: " ++ vi.likes ++
    " ğŸ’°æŠ•å¸: " ++ vi.coins ++
    "\nğŸ“æ”¶è—: " ++ vi.favorites ++
    " ğŸ”—åˆ†äº«: " ++ vi.shares ++
    "\nğŸ“ç®€ä»‹: " ++
    (if vi.description = "" then "æ— " else vi.description) ++
    "\n" ++ watching_total_text vi ++
    "\n" ++ vi.cleanedUrl)

/-- The error string when no BVID can be extracted. -/
def no_bvid_msg (processed_url url_input : String) : String :=
  "Error: Could not extract BVID from URL: " ++ processed_url ++
    " (original input: " ++ url_input ++ ")"

/-- Steps 2 to 4 of `parse_bili`, for an already processed URL. -/
def parse_from (env : Env) (url_input processed_url : String) : ParseResult :=
  match extract_bvid_from_url processed_url with
  | none => .err (no_bvid_msg processed_url url_input)
  | some bvid =>
    match fetchPhase env bvid with
    | .error e => .err e
    | .ok vi => .segs (.Text (text_to_copy_1 vi)) (.Image vi.pic) (.Text (text_to_copy_2 vi))

/-- `parse_bili` from `__main__.py`. -/
def parse_bili (env : Env) (url_input : String) : ParseResult :=
  match resolveStep env url_input with
  | .error e => .err e
  | .ok processed_url => parse_from env url_input processed_url

/-! ## `bili_parser/_main_win.py`: `set_clipboard_text_and_image`

The Text branch of the match: the source line reads
`processed_text = text.strip().replace("\\n", "<br>")`, with a doubled
backslash in the file, so the replaced pattern is the two-character text
backslash-n, not the newline character. -/

/-- `processed_text` for one Text segment. -/
def processed_text (text : String) : String := pyReplace (pyStrip text) "\\n" "<br>"

/-- The paragraph element appended for one Text segment. -/
def paragraph_html (text : String) : String := "<p>" ++ processed_text text ++ "</p>"

/-- The image element appended for a successfully loaded Image segment. -/
def img_html (src : String) : String := "<img src=\"" ++ src ++ "\" />"

/-- Markup contributed by one segment; the image loader is the oracle
`loadImg` (empty string = load failure, the segment is dropped). -/
def html_of_segment (loadImg : String → String) : Segment → Option String
  | .Text text => some (paragraph_html text)
  | .Image url => if loadImg url ≠ "" then some (img_html (loadImg url)) else none

/-- The `html_contents` list built by `set_clipboard_text_and_image`. -/
def html_contents (loadImg : String → String) (segments : List Segment) : List String :=
  segments.filterMap (html_of_segment loadImg)

/-! ## Claim C2: the image re-encode loop -/

theorem resizeGuard_shrink_lt {encSize : Nat → Nat → Nat} {w h : Nat}
    (hg : resizeGuard encSize w h = true) : shrinkDim w < w := by
  have hw : MIN_DIMENSION ≤ shrinkDim w := by
    simp only [resizeGuard, Bool.and_eq_true, decide_eq_true_eq] at hg
    exact hg.1.2
  simp only [MIN_DIMENSION, shrinkDim] at hw ⊢
  omega

theorem resizeGo_guard_false (encSize : Nat → Nat → Nat) :
    ∀ fuel w h, w < fuel →
      resizeGuard encSize (resizeGo encSize fuel w h).1 (resizeGo encSize fuel w h).2 = false := by
  intro fuel
  induction fuel with
  | zero => intro w h hw; omega
  | succ fuel ih =>
    intro w h hw
    rw [resizeGo]
    by_cases hg : resizeGuard encSize w h = true
    · rw [if_pos hg]
      apply ih
      have := resizeGuard_shrink_lt hg
      omega
    · rw [if_neg hg]
      simpa using hg

theorem resizeGo_steps (encSize : Nat → Nat → Nat) :
    ∀ fuel w h, w < fuel →
      ∃ k, (resizeGo encSize fuel w h).1 = shrinkIter k w ∧
        (resizeGo encSize fuel w h).2 = shrinkIter k h ∧
        ∀ j < k, resizeGuard encSize (shrinkIter j w) (shrinkIter j h) = true := by
  intro fuel
  induction fuel with
  | zero => intro w h hw; omega
  | succ fuel ih =>
    intro w h hw
    rw [resizeGo]
    by_cases hg : resizeGuard encSize w h = true
    · rw [if_pos hg]
      have hlt : shrinkDim w < fuel := by
        have := resizeGuard_shrink_lt hg
        omega
      obtain ⟨k, h1, h2, h3⟩ := ih (shrinkDim w) (shrinkDim h) hlt
      refine ⟨k + 1, h1, h2, ?_⟩
      intro j hj
      cases j with
      | zero => exact hg
      | succ j => exact h3 j (by omega)
    · rw [if_neg hg]
      exact ⟨0, rfl, rfl, fun j hj => by omega⟩

/-- Claim C2: the re-encode loop of `load_image` terminates for every
input (the loop exit condition provably holds of its result); an image
whose initial encoding is at or under the 5 MiB budget is not resized;
whenever the result still has both dimensions above the 100px floor the
encoded size is within budget; the loop shrinks both dimensions by the
0.8 factor each iteration and only while the guard held at every earlier
step; and the function proceeds with the final dimensions regardless. -/
theorem c2_load_image_resize_loop (encSize : Nat → Nat → Nat) (w h : Nat) :
    resizeGuard encSize (resize_loop encSize w h).1 (resize_loop encSize w h).2 = false ∧
    (encSize w h ≤ MAX_IMAGE_SIZE_BYTES → resize_loop encSize w h = (w, h)) ∧
    (MIN_DIMENSION ≤ shrinkDim (resize_loop encSize w h).1 →
      MIN_DIMENSION ≤ shrinkDim (resize_loop encSize w h).2 →
      encSize (resize_loop encSize w h).1 (resize_loop encSize w h).2 ≤ MAX_IMAGE_SIZE_BYTES) ∧
    (∃ k, (resize_loop encSize w h).1 = shrinkIter k w ∧
      (resize_loop encSize w h).2 = shrinkIter k h ∧
      ∀ j < k, resizeGuard encSize (shrinkIter j w) (shrinkIter j h) = true) ∧
    load_image_final encSize w h = some (resize_loop encSize w h) := by
  have hexit := resizeGo_guard_false encSize (w + 1) w h (Nat.lt_succ_self w)
  refine ⟨hexit, ?_, ?_, ?_, rfl⟩
  · intro hle
    have hg : resizeGuard encSize w h = false := by
      simp only [resizeGuard, Bool.and_eq_false_iff]
      left
      left
      simpa using Nat.not_lt.2 hle
    rw [resize_loop, resizeGo, if_neg (by simp [hg])]
  · intro hw hh
    have hx := hexit
    simp only [resizeGuard, Bool.and_eq_false_iff, decide_eq_false_iff_not] at hx
    rcases hx with (hx | hx) | hx
    · exact Nat.not_lt.1 hx
    · exact absurd hw hx
    · exact absurd hh hx
  · exact resizeGo_steps encSize (w + 1) w h (Nat.lt_succ_self w)

/-- A concrete PNG-size oracle for the C2 witness. -/
def encOracle (w h : Nat) : Nat := w * h * 100

theorem c2_load_image_resize_loop_witness :
    encOracle 50 50 ≤ MAX_IMAGE_SIZE_BYTES ∧
    resize_loop encOracle 50 50 = (50, 50) ∧
    resize_loop encOracle 1000 1000 = (208, 208) ∧
    MAX_IMAGE_SIZE_BYTES < encOracle 1000 1000 ∧
    encOracle 208 208 ≤ MAX_IMAGE_SIZE_BYTES :=
  ⟨by decide, (c2_load_image_resize_loop encOracle 50 50).2.1 (by decide),
   by decide, by decide, by decide⟩

/-! ## Claim C3: `format_number` -/

/-- Claim C3: for `0 ≤ n < 10000` the result is the exact decimal digit
string of `n` (its digits evaluate back to `n`); for `n ≥ 10000` the
result is an integer part, a dot, one decimal digit and the
ten-thousands unit, where the displayed tenths value `r` satisfies
`|n - 1000 r| ≤ 500` (it is `n / 10000` rounded to one decimal place)
and the integer part is at least 1. -/
theorem c3_format_number (n : Int) (h0 : 0 ≤ n) :
    (n < 10000 →
      (format_number (.int n)).data = natDigits n.toNat ∧
      digitsVal (natDigits n.toNat) = n.toNat) ∧
    (10000 ≤ n →
      format_number (.int n) =
        String.mk (natDigits (roundTenthsHE n.toNat / 10)) ++ "." ++
          String.mk (natDigits (roundTenthsHE n.toNat % 10)) ++ wan_unit ∧
      (n - (roundTenthsHE n.toNat : Int) * 1000).natAbs ≤ 500 ∧
      1 ≤ roundTenthsHE n.toNat / 10) := by
  have hfn : format_number (.int n) = if 10000 ≤ n then formatWan n else pyIntStr n := rfl
  constructor
  · intro hlt
    rw [hfn, if_neg (by omega), pyIntStr, if_neg (by omega)]
    exact ⟨rfl, digitsVal_natDigits _⟩
  · intro hge
    have hm : (n.toNat : Int) = n := Int.toNat_of_nonneg h0
    have hm4 : 10000 ≤ n.toNat := by omega
    refine ⟨by rw [hfn, if_pos hge]; rfl, ?_, ?_⟩
    · have hdm := Nat.div_add_mod n.toNat 1000
      have hmod : n.toNat % 1000 < 1000 := Nat.mod_lt _ (by omega)
      simp only [roundTenthsHE]
      split_ifs <;> omega
    · have hq : 10 ≤ n.toNat / 1000 := by omega
      simp only [roundTenthsHE]
      split_ifs <;> omega

theorem c3_format_number_witness :
    format_number (.int 12345) = "1.2" ++ wan_unit :=
  (((c3_format_number 12345 (by omega)).2 (by omega)).1).trans (by decide)

/-! ## Claim C7: the Text-segment newline handling (code bug) -/

/-- Claim C7 evaluation: the paragraph built for the Text segment
`"a\nb"` (with a real newline) keeps the newline, because the source
line replaces the literal two-character text backslash-n rather than the
newline character; the replacement does fire on a literal backslash-n. -/
theorem c7_paragraph_html_newline_kept :
    paragraph_html "a\nb" = "<p>a\nb</p>" ∧
    paragraph_html "a\nb" ≠ "<p>a<br>b</p>" ∧
    pyReplace "a\\nb" "\\n" "<br>" = "a<br>b" :=
  ⟨by decide, by decide, by decide⟩

/-! ## Claim C6: `resolve_b23_url` -/

theorem mem_takeWhileL {α : Type} (p : α → Bool) (l : List α) :
    ∀ c ∈ l.takeWhile p, p c = true := by
  induction l with
  | nil => intro c hc; cases hc
  | cons a t ih =>
    intro c hc
    rw [List.takeWhile_cons] at hc
    by_cases h : p a = true
    · rw [if_pos h] at hc
      rcases List.mem_cons.1 hc with rfl | hc
      · exact h
      · exact ih c hc
    · rw [if_neg h] at hc
      cases hc

theorem dropWhile_head_not {α : Type} (p : α → Bool) (l : List α) :
    l.dropWhile p = [] ∨ ∃ c cs, l.dropWhile p = c :: cs ∧ p c = false := by
  induction l with
  | nil => left; rfl
  | cons a t ih =>
    rw [List.dropWhile_cons]
    by_cases h : p a = true
    · rw [if_pos h]
      exact ih
    · rw [if_neg h]
      right
      exact ⟨a, t, rfl, by simpa using h⟩

/-- The cleaned Location is a prefix of the Location and has no `?`. -/
theorem cleanLocation_spec (loc : String) :
    (∃ t, loc.data = (cleanLocation loc).data ++ t) ∧
    (∀ c ∈ (cleanLocation loc).data, ¬(c = '?')) := by
  have hsplit := List.takeWhile_append_dropWhile (p := fun c => decide ¬(c = '?')) (l := loc.data)
  have hq : ∀ c ∈ loc.data.takeWhile (fun c => decide ¬(c = '?')), ¬(c = '?') := by
    intro c hc
    have := mem_takeWhileL (fun c => decide ¬(c = '?')) loc.data c hc
    simpa using this
  unfold cleanLocation
  by_cases he : pyEndsWith (String.mk (loc.data.takeWhile fun c => decide ¬(c = '?'))) "/" = true
  · rw [if_pos he]
    set l := loc.data.takeWhile (fun c => decide ¬(c = '?')) with hl
    have hne : l ≠ [] := by
      intro hnil
      rw [pyEndsWith, hnil] at he
      simp [isPrefixL] at he
    constructor
    · refine ⟨[l.getLast hne] ++ loc.data.dropWhile (fun c => decide ¬(c = '?')), ?_⟩
      conv_lhs => rw [← hsplit]
      rw [← List.append_assoc]
      congr 1
      exact (List.dropLast_append_getLast hne).symm
    · intro c hc
      exact hq c (List.dropLast_subset _ hc)
  · rw [if_neg he]
    exact ⟨⟨loc.data.dropWhile (fun c => decide ¬(c = '?')), hsplit.symm⟩, hq⟩

/-- Claim C6: for a target containing `b23.tv/`, a 301/302 response with
a (non-empty) Location header yields the Location cleaned (a prefix of
the Location free of `?`); any other status, a missing Location header,
or a network error yields `none`. -/
theorem c6_resolve_b23_url (env : Env) (url : String) (resp : HttpResp) (loc : String)
    (htarget : pyIn "b23.tv/"
      (if pyStartsWith url "http" then url else "https://" ++ url) = true) :
    (env.resolve = .ok resp → (resp.status = 301 ∨ resp.status = 302) →
      resp.location = some loc → ¬(loc = "") →
      resolve_b23_url env url = some (cleanLocation loc) ∧
      (∃ t, loc.data = (cleanLocation loc).data ++ t) ∧
      (∀ c ∈ (cleanLocation loc).data, ¬(c = '?'))) ∧
    (env.resolve = .ok resp → ¬(resp.status = 301 ∨ resp.status = 302) →
      resolve_b23_url env url = none) ∧
    (env.resolve = .ok resp → resp.location = none →
      resolve_b23_url env url = none) ∧
    (∀ e, env.resolve = .error e → resolve_b23_url env url = none) := by
  refine ⟨?_, ?_, ?_, ?_⟩
  · intro hok hst hloc hne
    refine ⟨?_, (cleanLocation_spec loc).1, (cleanLocation_spec loc).2⟩
    simp only [resolve_b23_url, htarget, Bool.true_eq_false, if_false, hok, hst, if_true,
      hloc, hne, ite_false]
  · intro hok hst
    simp only [resolve_b23_url, htarget, Bool.true_eq_false, if_false, hok, hst, if_false]
  · intro hok hloc
    simp only [resolve_b23_url, htarget, Bool.true_eq_false, if_false, hok, hloc]
    split <;> rfl
  · intro e herr
    simp only [resolve_b23_url, htarget, Bool.true_eq_false, if_false, herr]

def env_redirect : Env :=
  { resolve := .ok ⟨302, some "https://www.x.com/video/ABC123?x=1/"⟩,
    view := .netErr "e", relation := .netErr "e", online := .netErr "e" }

def env_status200 : Env :=
  { resolve := .ok ⟨200, some "https://y/"⟩,
    view := .netErr "e", relation := .netErr "e", online := .netErr "e" }

theorem c6_resolve_b23_url_witness :
    resolve_b23_url env_redirect "https://b23.tv/abc" = some "https://www.x.com/video/ABC123" ∧
    resolve_b23_url env_status200 "https://b23.tv/abc" = none := by
  constructor
  · have h := (c6_resolve_b23_url env_redirect "https://b23.tv/abc"
      ⟨302, some "https://www.x.com/video/ABC123?x=1/"⟩
      "https://www.x.com/video/ABC123?x=1/" (by decide)).1 rfl (Or.inr rfl) rfl (by decide)
    exact h.1.trans (by decide)
  · exact (c6_resolve_b23_url env_status200 "https://b23.tv/abc" ⟨200, some "https://y/"⟩
      "" (by decide)).2.1 rfl (by decide)

/-! ## Claim C5: short-link resolution failure handling -/

theorem potential_contains_b23 (u : String) : pyIn "b23.tv/" (potential_b23_url u) = true := by
  unfold potential_b23_url
  by_cases h : pyIn "b23.tv/" u = true
  · rw [if_pos h]
    exact h
  · rw [if_neg h]
    unfold pyIn
    rw [strData_append]
    apply containsSub_append_left
    decide

/-- Claim C5: inside the heuristic branch, when resolution fails
(returns `none` or the falsy empty string): if the attempted target
contains `b23.tv/` the whole parse returns the explicit error string
(which contains the link); otherwise the parse proceeds on the original
input.  (The second case is vacuous: the attempted target always
contains `b23.tv/`, which the proof establishes.) -/
theorem c5_resolution_failure (env : Env) (url_input : String)
    (hheur : b23_heuristic url_input = true)
    (hfail : resolve_b23_url env (potential_b23_url url_input) = none ∨
      resolve_b23_url env (potential_b23_url url_input) = some "") :
    (pyIn "b23.tv/" (potential_b23_url url_input) = true →
      parse_bili env url_input = .err (b23_error_msg (potential_b23_url url_input)) ∧
      containsSub (b23_error_msg (potential_b23_url url_input)).data
        (potential_b23_url url_input).data = true) ∧
    (pyIn "b23.tv/" (potential_b23_url url_input) = false →
      parse_bili env url_input = parse_from env url_input url_input) := by
  constructor
  · intro hin
    have hstep : resolveStep env url_input = .error (b23_error_msg (potential_b23_url url_input)) := by
      rcases hfail with hf | hf <;> simp [resolveStep, hheur, hf, hin]
    refine ⟨?_, ?_⟩
    · unfold parse_bili
      rw [hstep]
    · unfold b23_error_msg
      rw [strData_append]
      have h := containsSub_of_middle ("Error: Failed to resolve b23.tv short link: ").data
        [] (potential_b23_url url_input).data
      simpa using h
  · intro hnot
    rw [potential_contains_b23 url_input] at hnot
    simp at hnot

def env_c5 : Env :=
  { resolve := .ok ⟨200, none⟩, view := .netErr "e", relation := .netErr "e",
    online := .netErr "e" }

theorem c5_resolution_failure_witness :
    b23_heuristic "b23.tv/xyz" = true ∧
    resolve_b23_url env_c5 (potential_b23_url "b23.tv/xyz") = none ∧
    parse_bili env_c5 "b23.tv/xyz" = .err (b23_error_msg (potential_b23_url "b23.tv/xyz")) :=
  ⟨by decide, by decide,
    ((c5_resolution_failure env_c5 "b23.tv/xyz" (by decide) (Or.inl (by decide))).1 (by decide)).1⟩

/-! ## Claim C8: `extract_bvid_from_url` and the no-BVID error path -/

theorem searchBV_eq_none_iff (l : List Char) :
    searchBV l = none ↔ ∀ i, bvAt (l.drop i) = false := by
  induction l with
  | nil =>
    constructor
    · intro _ i
      rw [List.drop_nil]
      rfl
    · intro _
      rfl
  | cons a t ih =>
    rw [searchBV]
    by_cases h : bvAt (a :: t) = true
    · rw [if_pos h]
      constructor
      · intro hc
        exact Option.noConfusion hc
      · intro hall
        have h0 := hall 0
        rw [List.drop_zero, h] at h0
        exact Bool.noConfusion h0
    · rw [if_neg h, ih]
      constructor
      · intro hall i
        cases i with
        | zero =>
          rw [List.drop_zero]
          simpa using h
        | succ i =>
          rw [List.drop_succ_cons]
          exact hall i
      · intro hall i
        have hi := hall (i + 1)
        rw [List.drop_succ_cons] at hi
        exact hi

theorem searchBV_eq_some_spec : ∀ {l r : List Char}, searchBV l = some r →
    ∃ i, bvAt (l.drop i) = true ∧ (∀ j < i, bvAt (l.drop j) = false) ∧
      r = 'B' :: 'V' :: ((l.drop (i + 2)).takeWhile pyAlnum) := by
  intro l
  induction l with
  | nil => intro r h; exact Option.noConfusion h
  | cons a t ih =>
    intro r h
    rw [searchBV] at h
    by_cases hb : bvAt (a :: t) = true
    · rw [if_pos hb] at h
      injection h with h
      refine ⟨0, by rwa [List.drop_zero], fun j hj => absurd hj (by omega), ?_⟩
      rw [← h]
      rfl
    · rw [if_neg hb] at h
      obtain ⟨i, h1, h2, h3⟩ := ih h
      refine ⟨i + 1, ?_, ?_, ?_⟩
      · rwa [List.drop_succ_cons]
      · intro j hj
        cases j with
        | zero =>
          rw [List.drop_zero]
          simpa using hb
        | succ j =>
          rw [List.drop_succ_cons]
          exact h2 j (by omega)
      · rw [List.drop_succ_cons]
        exact h3

theorem bvAt_eq_true_iff (l : List Char) :
    bvAt l = true ↔ ∃ c r2, l = 'B' :: 'V' :: c :: r2 ∧ pyAlnum c = true := by
  rcases l with _ | ⟨a, _ | ⟨b, _ | ⟨c, r2⟩⟩⟩
  · simp [bvAt]
  · simp [bvAt]
  · simp [bvAt]
  · rw [bvAt]
    constructor
    · intro h
      rw [Bool.and_eq_true, Bool.and_eq_true] at h
      obtain ⟨⟨ha, hb⟩, hc⟩ := h
      simp only [decide_eq_true_eq] at ha hb
      exact ⟨c, r2, by rw [ha, hb], hc⟩
    · rintro ⟨c2, r3, heq, hc⟩
      injection heq with h1 heq
      injection heq with h2 heq
      injection heq with h3 h4
      subst h1
      subst h2
      subst h3
      subst h4
      simp [hc]

/-- Claim C8: a successful extraction is `BV` plus a non-empty maximal
alphanumeric run at the leftmost matching position; extraction returns
nothing exactly when no position matches (including the empty string);
and when no BVID is extractable, `parse_bili` returns the error string,
which contains the original input, independently of any fetch. -/
theorem c8_extract_bvid_from_url :
    (∀ url s, extract_bvid_from_url url = some s →
      ∃ i run rest,
        s.data = 'B' :: 'V' :: run ∧
        run ≠ [] ∧ (∀ c ∈ run, pyAlnum c = true) ∧
        url.data = url.data.take i ++ s.data ++ rest ∧
        (∀ j < i, bvAt (url.data.drop j) = false) ∧
        (rest = [] ∨ ∃ c2 cs2, rest = c2 :: cs2 ∧ pyAlnum c2 = false)) ∧
    (∀ url, extract_bvid_from_url url = none ↔ ∀ i, bvAt (url.data.drop i) = false) ∧
    (∀ env url_input p, resolveStep env url_input = .ok p →
      extract_bvid_from_url p = none →
      parse_bili env url_input = .err (no_bvid_msg p url_input) ∧
      containsSub (no_bvid_msg p url_input).data url_input.data = true) := by
  refine ⟨?_, ?_, ?_⟩
  · intro url s h
    rw [extract_bvid_from_url] at h
    split at h
    · exact Option.noConfusion h
    · cases hs : searchBV url.data with
      | none => rw [hs] at h; exact Option.noConfusion h
      | some r =>
        rw [hs] at h
        simp only [Option.map_some'] at h
        injection h with h
        obtain ⟨i, h1, h2, h3⟩ := searchBV_eq_some_spec hs
        obtain ⟨c, r2, hdi, hc⟩ := (bvAt_eq_true_iff _).1 h1
        have hdd : url.data.drop (i + 2) = c :: r2 := by
          have e1 : url.data.drop (i + 2) = (url.data.drop i).drop 2 := by
            rw [List.drop_drop]
          rw [e1, hdi]
          rfl
        refine ⟨i, (c :: r2).takeWhile pyAlnum, (c :: r2).dropWhile pyAlnum, ?_, ?_, ?_, ?_, h2, ?_⟩
        · rw [← h, h3, hdd]
        · rw [List.takeWhile_cons, if_pos hc]
          simp
        · exact mem_takeWhileL pyAlnum (c :: r2)
        · conv_lhs => rw [← List.take_append_drop i url.data]
          rw [hdi, ← h, h3, hdd]
          simp [List.takeWhile_append_dropWhile]
        · rcases dropWhile_head_not pyAlnum (c :: r2) with hnil | ⟨c2, cs2, heq, hne⟩
          · exact Or.inl hnil
          · exact Or.inr ⟨c2, cs2, heq, hne⟩
  · intro url
    rw [extract_bvid_from_url]
    split
    · next hu =>
      subst hu
      constructor
      · intro _ i
        rw [show (("" : String)).data = ([] : List Char) from rfl, List.drop_nil]
        rfl
      · intro _
        rfl
    · constructor
      · intro h
        cases hs : searchBV url.data with
        | none => exact (searchBV_eq_none_iff _).1 hs
        | some r => rw [hs] at h; exact Option.noConfusion h
      · intro hall
        rw [(searchBV_eq_none_iff _).2 hall]
        rfl
  · intro env url_input p hp hb
    constructor
    · simp only [parse_bili, hp, parse_from, hb]
    · have h := containsSub_of_middle
        ("Error: Could not extract BVID from URL: " ++ p ++ " (original input: ").data
        (")").data url_input.data
      simpa [no_bvid_msg, strData_append, List.append_assoc] using h

theorem c8_extract_bvid_from_url_witness :
    extract_bvid_from_url "x BV1QL411M7r3!" = some "BV1QL411M7r3" ∧
    extract_bvid_from_url "hello world!" = none ∧
    parse_bili env_c5 "hello world!" = .err (no_bvid_msg "hello world!" "hello world!") ∧
    containsSub (no_bvid_msg "hello world!" "hello world!").data ("hello world!").data = true := by
  refine ⟨by decide, by decide, ?_, ?_⟩
  · exact (c8_extract_bvid_from_url.2.2 env_c5 "hello world!" "hello world!"
      rfl (by decide)).1
  · exact (c8_extract_bvid_from_url.2.2 env_c5 "hello world!" "hello world!"
      rfl (by decide)).2

/-! ## Claim C9: non-zero view API status code -/

theorem parse_view_code_nonzero_aux {env : Env} {url_input p b : String} {vr : ViewResp}
    {c : Int} (hp : resolveStep env url_input = .ok p)
    (hb : extract_bvid_from_url p = some b)
    (hv : env.view = .ok vr)
    (hcode : vr.code = some c) (hc : ¬(c = 0)) :
    parse_bili env url_input =
      .segs (.Text (text_to_copy_1 (init_video_info b))) (.Image "N/A")
        (.Text (text_to_copy_2 (init_video_info b))) := by
  have hav : apply_view (init_video_info b) vr = init_video_info b := by
    rw [apply_view, if_neg]
    rw [hcode]
    intro hx
    injection hx with hx
    exact hc hx
  have hrel : fetch_relation_step env (init_video_info b) = .ok (init_video_info b) := by
    rw [fetch_relation_step, if_neg]
    simp [init_video_info, pyTruthyOptInt]
  have honl : fetch_online_step env (init_video_info b) = .ok (init_video_info b) := by
    rw [fetch_online_step, if_neg]
    simp [init_video_info, pyTruthyOptInt]
  simp only [parse_bili, hp, parse_from, hb, fetchPhase, hv, hav, hrel, honl]
  rfl

/-- Claim C9: a well-formed view payload with non-zero status code does
not abort `parse_bili`: the record keeps its sentinel values, the
follower and viewer fetches are skipped (the result does not depend on
their outcomes at all), and the three segments are still returned. -/
theorem c9_view_code_nonzero (env : Env) (url_input p b : String) (vr : ViewResp) (c : Int)
    (hp : resolveStep env url_input = .ok p)
    (hb : extract_bvid_from_url p = some b)
    (hv : env.view = .ok vr)
    (hcode : vr.code = some c) (hc : ¬(c = 0)) :
    parse_bili env url_input =
      .segs (.Text (text_to_copy_1 (init_video_info b))) (.Image "N/A")
        (.Text (text_to_copy_2 (init_video_info b))) ∧
    (∀ rel2 onl2, parse_bili { env with relation := rel2, online := onl2 } url_input =
      parse_bili env url_input) := by
  have h1 := parse_view_code_nonzero_aux hp hb hv hcode hc
  refine ⟨h1, ?_⟩
  intro rel2 onl2
  have hp2 : resolveStep { env with relation := rel2, online := onl2 } url_input = .ok p := hp
  have hv2 : ({ env with relation := rel2, online := onl2 } : Env).view = .ok vr := hv
  exact (parse_view_code_nonzero_aux hp2 hb hv2 hcode hc).trans h1.symm

def view_c9 : ViewResp :=
  { code := some 999,
    data := some ⟨some "T", some "D", some "P", some ⟨some "U", some 5⟩, some 7,
      some ⟨some 1, some 2, some 3, some 4, some 5, some 6⟩⟩ }

def env_c9 : Env :=
  { resolve := .ok ⟨200, none⟩, view := .ok view_c9,
    relation := .netErr "boom", online := .netErr "boom" }

theorem c9_view_code_nonzero_witness :
    parse_bili env_c9 "BV1abc" =
      .segs (.Text (text_to_copy_1 (init_video_info "BV1abc"))) (.Image "N/A")
        (.Text (text_to_copy_2 (init_video_info "BV1abc"))) :=
  (c9_view_code_nonzero env_c9 "BV1abc" "BV1abc" "BV1abc" view_c9 999
    rfl (by decide) rfl rfl (by decide)).1

/-! ## Claim C10: exception conversion and totality -/

/-- Claim C10: `parse_bili` totally returns either an error string or a
segment triple, and every exception outcome of the metadata-fetch phase
(network error, JSON decode error, or any other exception) at any of the
three call sites reached by control is converted into the corresponding
returned error string. -/
theorem c10_parse_bili_total (env : Env) (url_input : String) :
    ((∃ e, parse_bili env url_input = .err e) ∨
      ∃ a b c, parse_bili env url_input = .segs a b c) ∧
    (∀ p b m, resolveStep env url_input = .ok p → extract_bvid_from_url p = some b →
      fetchErrMsg env.view = some m → parse_bili env url_input = .err m) ∧
    (∀ p b vr m, resolveStep env url_input = .ok p → extract_bvid_from_url p = some b →
      env.view = .ok vr →
      pyTruthyOptInt (apply_view (init_video_info b) vr).upMid = true →
      fetchErrMsg env.relation = some m → parse_bili env url_input = .err m) ∧
    (∀ p b vr vi2 m, resolveStep env url_input = .ok p → extract_bvid_from_url p = some b →
      env.view = .ok vr →
      fetch_relation_step env (apply_view (init_video_info b) vr) = .ok vi2 →
      pyTruthyOptInt vi2.cid = true →
      fetchErrMsg env.online = some m → parse_bili env url_input = .err m) := by
  refine ⟨?_, ?_, ?_, ?_⟩
  · cases hpb : parse_bili env url_input with
    | err e => exact Or.inl ⟨e, rfl⟩
    | segs a b c => exact Or.inr ⟨a, b, c, rfl⟩
  · intro p b m hp hb hm
    cases hv : env.view <;> rw [hv] at hm <;> simp [fetchErrMsg] at hm <;>
      simp only [parse_bili, hp, parse_from, hb, fetchPhase, hv, hm]
  · intro p b vr m hp hb hv htr hm
    cases hr : env.relation <;> rw [hr] at hm <;> simp [fetchErrMsg] at hm <;>
      simp only [parse_bili, hp, parse_from, hb, fetchPhase, hv, fetch_relation_step,
        htr, if_true, hr, hm]
  · intro p b vr vi2 m hp hb hv hrel htr hm
    cases ho : env.online <;> rw [ho] at hm <;> simp [fetchErrMsg] at hm <;>
      simp only [parse_bili, hp, parse_from, hb, fetchPhase, hv, hrel, fetch_online_step,
        htr, if_true, ho, hm]

def env_c10 : Env :=
  { resolve := .ok ⟨200, none⟩, view := .exc "boom",
    relation := .netErr "x", online := .netErr "x" }

theorem c10_parse_bili_total_witness :
    parse_bili env_c10 "BV1abc" = .err (unexpected_error_msg "boom") :=
  (c10_parse_bili_total env_c10 "BV1abc").2.1 "BV1abc" "BV1abc"
    (unexpected_error_msg "boom") rfl (by decide) rfl

/-! ## Claim C4: success shape and the follower-count clause -/

theorem str_eq_iff_data (a b : String) : a = b ↔ a.data = b.data := by
  constructor
  · intro h
    rw [h]
  · intro h
    cases a
    cases b
    exact congrArg String.mk h

theorem apply_view_upFans (vi : VideoInfo) (vr : ViewResp) :
    (apply_view vi vr).upFans = vi.upFans := by
  rw [apply_view]
  split <;> rfl

theorem apply_online_upFans (vi : VideoInfo) (orr : OnlineResp) :
    (apply_online vi orr).upFans = vi.upFans := by
  cases hd : orr.data with
  | none => simp [apply_online, hd]
  | some d =>
    simp only [apply_online, hd]
    split <;> rfl

theorem fetch_relation_step_ok {env : Env} {rr : RelResp} (hr : env.relation = .ok rr)
    (vi : VideoInfo) :
    fetch_relation_step env vi =
      .ok (if pyTruthyOptInt vi.upMid then apply_relation vi rr else vi) := by
  by_cases h : pyTruthyOptInt vi.upMid = true <;> simp [fetch_relation_step, hr, h]

theorem fetch_online_step_ok {env : Env} {orr : OnlineResp} (ho : env.online = .ok orr)
    (vi : VideoInfo) :
    fetch_online_step env vi =
      .ok (if pyTruthyOptInt vi.cid then apply_online vi orr else vi) := by
  by_cases h : pyTruthyOptInt vi.cid = true <;> simp [fetch_online_step, ho, h]

/-- The `video_info` record after the three fetches, all of them
returning parsed payloads. -/
def fetched_info (b : String) (vr : ViewResp) (rr : RelResp) (orr : OnlineResp) : VideoInfo :=
  let vi1 := apply_view (init_video_info b) vr
  let vi2 := if pyTruthyOptInt vi1.upMid then apply_relation vi1 rr else vi1
  if pyTruthyOptInt vi2.cid then apply_online vi2 orr else vi2

theorem fetchPhase_ok {env : Env} {vr : ViewResp} {rr : RelResp} {orr : OnlineResp}
    (hv : env.view = .ok vr) (hr : env.relation = .ok rr) (ho : env.online = .ok orr)
    (b : String) : fetchPhase env b = .ok (fetched_info b vr rr orr) := by
  simp only [fetchPhase, hv, fetch_relation_step_ok hr, fetch_online_step_ok ho, fetched_info]

theorem formatWan_data_length (n : Int) :
    (formatWan n).data.length =
      (natDigits (roundTenthsHE n.toNat / 10)).length + 1 +
        (natDigits (roundTenthsHE n.toNat % 10)).length + 3 := by
  unfold formatWan
  rw [strData_append, strData_append, strData_append]
  simp [wan_unit]
  omega

theorem format_number_int_ne_NA (n : Int) : ¬(format_number (.int n) = "N/A") := by
  intro h
  rw [str_eq_iff_data] at h
  rw [show format_number (.int n) = if 10000 ≤ n then formatWan n else pyIntStr n from rfl] at h
  split_ifs at h with hge
  · have hlen := congrArg List.length h
    rw [formatWan_data_length] at hlen
    simp at hlen
  · rw [pyIntStr] at h
    split_ifs at h with hneg
    · rw [strData_append] at h
      injection h with h1 h2
      exact absurd h1 (by decide)
    · have hN : 'N' ∈ natDigits n.toNat := by
        rw [show (String.mk (natDigits n.toNat)).data = natDigits n.toNat from rfl] at h
        rw [h]
        simp
      rw [natDigits] at hN
      exact absurd (natDigitsGo_mem hN) (by decide)

theorem format_number_int_eq_zero_iff (n : Int) : format_number (.int n) = "0" ↔ n = 0 := by
  constructor
  · intro h
    rw [str_eq_iff_data] at h
    rw [show format_number (.int n) = if 10000 ≤ n then formatWan n else pyIntStr n from rfl] at h
    split_ifs at h with hge
    · have hlen := congrArg List.length h
      rw [formatWan_data_length] at hlen
      simp at hlen
    · rw [pyIntStr] at h
      split_ifs at h with hneg
      · rw [strData_append] at h
        injection h with h1 h2
        exact absurd h1 (by decide)
      · have hds : natDigits n.toNat = ['0'] := h
        have hv := digitsVal_natDigits n.toNat
        rw [hds] at hv
        have : n.toNat = 0 := by simpa [digitsVal, digitVal] using hv.symm
        omega
  · intro h
    subst h
    rfl

theorem up_fans_text_ne_empty_iff (vi : VideoInfo) :
    ¬(up_fans_text vi = "") ↔ (¬(vi.upFans = "N/A") ∧ ¬(vi.upFans = "0")) := by
  unfold up_fans_text
  split_ifs with h
  · constructor
    · intro _
      exact h
    · intro _ he
      rw [str_eq_iff_data, strData_append] at he
      simp at he
  · constructor
    · intro hne
      exact absurd rfl hne
    · intro hc
      exact absurd hc h

theorem apply_relation_upFans_pos {rr : RelResp} (h2 : rr.code = some 0) (vi : VideoInfo) :
    (apply_relation vi rr).upFans =
      format_number (.int ((rr.data.getD emptyRelData).follower.getD 0)) := by
  rw [apply_relation, if_pos h2]

theorem apply_relation_upFans_neg {rr : RelResp} (h2 : ¬(rr.code = some 0)) (vi : VideoInfo) :
    (apply_relation vi rr).upFans = vi.upFans := by
  rw [apply_relation, if_neg h2]

theorem fetched_info_upFans (b : String) (vr : ViewResp) (rr : RelResp) (orr : OnlineResp) :
    (fetched_info b vr rr orr).upFans =
      if pyTruthyOptInt (apply_view (init_video_info b) vr).upMid = true ∧ rr.code = some 0
      then format_number (.int ((rr.data.getD emptyRelData).follower.getD 0))
      else "N/A" := by
  have hbase : (apply_view (init_video_info b) vr).upFans = "N/A" := by
    rw [apply_view_upFans]
    rfl
  simp only [fetched_info]
  by_cases h1 : pyTruthyOptInt (apply_view (init_video_info b) vr).upMid = true
  · rw [if_pos h1]
    by_cases h2 : rr.code = some 0
    · have hcond : pyTruthyOptInt (apply_view (init_video_info b) vr).upMid = true ∧
          rr.code = some 0 := ⟨h1, h2⟩
      rw [if_pos hcond]
      by_cases h3 :
          pyTruthyOptInt (apply_relation (apply_view (init_video_info b) vr) rr).cid = true
      · rw [if_pos h3, apply_online_upFans, apply_relation_upFans_pos h2]
      · rw [if_neg h3, apply_relation_upFans_pos h2]
    · have hcond : ¬(pyTruthyOptInt (apply_view (init_video_info b) vr).upMid = true ∧
          rr.code = some 0) := fun hc => h2 hc.2
      rw [if_neg hcond]
      by_cases h3 :
          pyTruthyOptInt (apply_relation (apply_view (init_video_info b) vr) rr).cid = true
      · rw [if_pos h3, apply_online_upFans, apply_relation_upFans_neg h2, hbase]
      · rw [if_neg h3, apply_relation_upFans_neg h2, hbase]
  · have hcond : ¬(pyTruthyOptInt (apply_view (init_video_info b) vr).upMid = true ∧
        rr.code = some 0) := fun hc => h1 hc.1
    rw [if_neg h1, if_neg hcond]
    by_cases h3 : pyTruthyOptInt (apply_view (init_video_info b) vr).cid = true
    · rw [if_pos h3, apply_online_upFans, hbase]
    · rw [if_neg h3, hbase]

/-- Claim C4: with resolution and extraction successful and all three
API calls returning parsed payloads, `parse_bili` returns exactly the
three segments Text, Image, Text built from the fetched record, and the
uploader line carries the follower-count clause exactly when the
follower count was fetched (uploader id truthy and relation status code
zero) and is non-zero. -/
theorem c4_parse_bili_success (env : Env) (url_input p b : String)
    (vr : ViewResp) (rr : RelResp) (orr : OnlineResp)
    (hp : resolveStep env url_input = .ok p)
    (hb : extract_bvid_from_url p = some b)
    (hv : env.view = .ok vr) (hr : env.relation = .ok rr) (ho : env.online = .ok orr) :
    parse_bili env url_input =
      .segs (.Text (text_to_copy_1 (fetched_info b vr rr orr)))
        (.Image (fetched_info b vr rr orr).pic)
        (.Text (text_to_copy_2 (fetched_info b vr rr orr))) ∧
    (¬(up_fans_text (fetched_info b vr rr orr) = "") ↔
      (pyTruthyOptInt (apply_view (init_video_info b) vr).upMid = true ∧
        rr.code = some 0 ∧
        ¬((rr.data.getD emptyRelData).follower.getD 0 = 0))) := by
  constructor
  · simp only [parse_bili, hp, parse_from, hb, fetchPhase_ok hv hr ho]
  · rw [up_fans_text_ne_empty_iff, fetched_info_upFans]
    by_cases h1 : pyTruthyOptInt (apply_view (init_video_info b) vr).upMid = true ∧
        rr.code = some 0
    · rw [if_pos h1]
      constructor
      · rintro ⟨_, h0⟩
        refine ⟨h1.1, h1.2, ?_⟩
        intro hz
        exact h0 ((format_number_int_eq_zero_iff _).2 hz)
      · rintro ⟨_, _, hnz⟩
        exact ⟨format_number_int_ne_NA _, fun h0 => hnz ((format_number_int_eq_zero_iff _).1 h0)⟩
    · rw [if_neg h1]
      constructor
      · rintro ⟨hna, _⟩
        exact absurd rfl hna
      · rintro ⟨ht, hc, _⟩
        exact absurd ⟨ht, hc⟩ h1

def view_c4 : ViewResp :=
  { code := some 0,
    data := some ⟨some "T", some "D", some "P", some ⟨some "U", some 5⟩, some 7,
      some ⟨some 12345, some 2, some 3, some 4, some 5, some 6⟩⟩ }

def rel_c4 : RelResp := { code := some 0, data := some ⟨some 42⟩ }

def online_c4 : OnlineResp := { code := some 0, data := some ⟨some 10, some 3, none⟩ }

def env_c4 : Env :=
  { resolve := .ok ⟨200, none⟩, view := .ok view_c4,
    relation := .ok rel_c4, online := .ok online_c4 }

theorem c4_parse_bili_success_witness :
    parse_bili env_c4 "BV1abc" =
      .segs (.Text (text_to_copy_1 (fetched_info "BV1abc" view_c4 rel_c4 online_c4)))
        (.Image (fetched_info "BV1abc" view_c4 rel_c4 online_c4).pic)
        (.Text (text_to_copy_2 (fetched_info "BV1abc" view_c4 rel_c4 online_c4))) ∧
    ¬(up_fans_text (fetched_info "BV1abc" view_c4 rel_c4 online_c4) = "") := by
  have h := c4_parse_bili_success env_c4 "BV1abc" "BV1abc" "BV1abc" view_c4 rel_c4 online_c4
    rfl (by decide) rfl rfl rfl
  exact ⟨h.1, h.2.2 ⟨by decide, rfl, by decide⟩⟩

/-! ## Claim C1: CF_HTML payload offsets -/

theorem isPrefixL_refl [DecidableEq α] (l : List α) : isPrefixL l l = true :=
  (isPrefixL_iff_append _ _).2 ⟨[], by simp⟩

theorem isPrefixL_append_of_take_ne [DecidableEq α] {pat u : List α} (Z : List α)
    (h : isPrefixL (pat.take u.length) u = false) : isPrefixL pat (u ++ Z) = false := by
  cases hp : isPrefixL pat (u ++ Z) with
  | false => rfl
  | true =>
    exfalso
    rcases (isPrefixL_iff_append _ _).1 hp with ⟨t, ht⟩
    have htake := congrArg (List.take u.length) ht.symm
    rw [List.take_left, List.take_append_eq_append_take] at htake
    have hx : isPrefixL (pat.take u.length) u = true :=
      (isPrefixL_iff_append _ _).2 ⟨t.take (u.length - pat.length), htake.symm⟩
    rw [h] at hx
    exact Bool.noConfusion hx

theorem containsSub_iff [DecidableEq α] (hay pat : List α) :
    containsSub hay pat = true ↔ ∃ n, isPrefixL pat (hay.drop n) = true := by
  induction hay with
  | nil =>
    rw [containsSub]
    constructor
    · intro h
      exact ⟨0, by simpa using h⟩
    · rintro ⟨n, hn⟩
      rw [List.drop_nil] at hn
      exact hn
  | cons a t ih =>
    rw [containsSub, Bool.or_eq_true, ih]
    constructor
    · rintro (h | ⟨n, hn⟩)
      · exact ⟨0, by simpa using h⟩
      · exact ⟨n + 1, by simpa using hn⟩
    · rintro ⟨n, hn⟩
      cases n with
      | zero =>
        left
        simpa using hn
      | succ n =>
        right
        exact ⟨n, by simpa using hn⟩

def preBytes : List Nat := strUtf8 "<html><body>"

def sSentBytes : List Nat := strUtf8 "<!--StartFragment-->"

def eSentBytes : List Nat := strUtf8 "<!--EndFragment-->"

def postBytes : List Nat := strUtf8 "</body></html>"

theorem full_html_utf8_decomp (c : String) :
    full_html_utf8 c =
      preBytes ++ (sSentBytes ++ (strUtf8 c ++ (eSentBytes ++ postBytes))) := by
  simp [full_html_utf8, full_html, html_fragment, preBytes, sSentBytes, eSentBytes,
    postBytes, strUtf8_append, List.append_assoc]

theorem full_html_utf8_length (c : String) :
    (full_html_utf8 c).length = 64 + (strUtf8 c).length := by
  rw [full_html_utf8_decomp]
  simp only [List.length_append]
  have h1 : preBytes.length = 12 := by decide
  have h2 : sSentBytes.length = 20 := by decide
  have h3 : eSentBytes.length = 18 := by decide
  have h4 : postBytes.length = 14 := by decide
  omega

theorem findSub_start_sentinel (c : String) :
    findSub (full_html_utf8 c) sSentBytes = 12 := by
  have h := @findSub_eq_of_least Nat _ (full_html_utf8 c) sSentBytes 12 ?_ ?_
  · exact h
  · rw [full_html_utf8_decomp]
    rw [show (12 : Nat) = preBytes.length from by decide, List.drop_left]
    exact isPrefixL_append_right _ (isPrefixL_refl _)
  · intro m hm
    rw [full_html_utf8_decomp,
      show preBytes ++ (sSentBytes ++ (strUtf8 c ++ (eSentBytes ++ postBytes))) =
        (preBytes ++ sSentBytes) ++ (strUtf8 c ++ (eSentBytes ++ postBytes)) from by
          simp [List.append_assoc]]
    rw [List.drop_append_eq_append_drop]
    have h32 : (preBytes ++ sSentBytes).length = 32 := by decide
    rw [show m - (preBytes ++ sSentBytes).length = 0 from by omega, List.drop_zero]
    apply isPrefixL_append_of_take_ne
    interval_cases m <;> decide

theorem findSub_end_sentinel (c : String)
    (hc : containsSub (strUtf8 c) eSentBytes = false) :
    findSub (full_html_utf8 c) eSentBytes = ((32 + (strUtf8 c).length : Nat) : Int) := by
  have h := @findSub_eq_of_least Nat _ (full_html_utf8 c) eSentBytes (32 + (strUtf8 c).length) ?_ ?_
  · exact h
  · rw [full_html_utf8_decomp,
      show preBytes ++ (sSentBytes ++ (strUtf8 c ++ (eSentBytes ++ postBytes))) =
        (preBytes ++ sSentBytes ++ strUtf8 c) ++ (eSentBytes ++ postBytes) from by
          simp [List.append_assoc]]
    have hl : 32 + (strUtf8 c).length = (preBytes ++ sSentBytes ++ strUtf8 c).length := by
      simp only [List.length_append]
      have h1 : preBytes.length = 12 := by decide
      have h2 : sSentBytes.length = 20 := by decide
      omega
    rw [hl, List.drop_left]
    exact isPrefixL_append_right _ (isPrefixL_refl _)
  · intro m hm
    rw [full_html_utf8_decomp,
      show preBytes ++ (sSentBytes ++ (strUtf8 c ++ (eSentBytes ++ postBytes))) =
        (preBytes ++ sSentBytes) ++ (strUtf8 c ++ (eSentBytes ++ postBytes)) from by
          simp [List.append_assoc]]
    rw [List.drop_append_eq_append_drop]
    have h32 : (preBytes ++ sSentBytes).length = 32 := by decide
    by_cases hm32 : m < 32
    · rw [show m - (preBytes ++ sSentBytes).length = 0 from by omega, List.drop_zero]
      apply isPrefixL_append_of_take_ne
      interval_cases m <;> decide
    · rw [List.drop_eq_nil_of_le (by omega), List.nil_append, h32]
      rw [List.drop_append_eq_append_drop]
      have hkL : m - 32 < (strUtf8 c).length := by omega
      rw [show m - 32 - (strUtf8 c).length = 0 from by omega, List.drop_zero]
      by_cases hk18 : m - 32 + 18 ≤ (strUtf8 c).length
      · have hlen : eSentBytes.length ≤ ((strUtf8 c).drop (m - 32)).length := by
          rw [List.length_drop]
          have h18 : eSentBytes.length = 18 := by decide
          omega
        rw [isPrefixL_append_left _ hlen]
        cases hp : isPrefixL eSentBytes ((strUtf8 c).drop (m - 32)) with
        | false => rfl
        | true =>
          exfalso
          have hcon := (containsSub_iff (strUtf8 c) eSentBytes).2 ⟨m - 32, hp⟩
          rw [hc] at hcon
          exact Bool.noConfusion hcon
      · cases hp : isPrefixL eSentBytes
            ((strUtf8 c).drop (m - 32) ++ (eSentBytes ++ postBytes)) with
        | false => rfl
        | true =>
          exfalso
          rcases (isPrefixL_iff_append _ _).1 hp with ⟨t, ht⟩
          have hdu : ((strUtf8 c).drop (m - 32)).length = (strUtf8 c).length - (m - 32) :=
            List.length_drop _ _
          have h18 : eSentBytes.length = 18 := by decide
          have htake := congrArg (List.take 18) ht
          rw [List.take_append_eq_append_take,
            List.take_of_length_le (by omega),
            show (eSentBytes ++ postBytes).take (18 - ((strUtf8 c).drop (m - 32)).length) =
              eSentBytes.take (18 - ((strUtf8 c).drop (m - 32)).length) from by
                rw [List.take_append_eq_append_take,
                  show 18 - ((strUtf8 c).drop (m - 32)).length - eSentBytes.length = 0 from by
                    omega,
                  List.take_zero, List.append_nil],
            show (eSentBytes ++ t).take 18 = eSentBytes from by rw [← h18, List.take_left]]
            at htake
          have hdropd := congrArg (List.drop ((strUtf8 c).drop (m - 32)).length) htake
          rw [List.drop_left] at hdropd
          have hborder : ∀ d, d < 18 → 1 ≤ d →
              ¬(eSentBytes.take (18 - d) = eSentBytes.drop d) := by decide
          exact hborder ((strUtf8 c).drop (m - 32)).length (by omega) (by omega) hdropd

theorem start_html_offset_eq : start_html_offset = 115 := by decide

theorem start_fragment_offset_eq (c : String) : start_fragment_offset c = 127 := by
  rw [start_fragment_offset, start_html_offset_eq,
    show strUtf8 "<!--StartFragment-->" = sSentBytes from rfl, findSub_start_sentinel]
  decide

theorem end_fragment_offset_eq (c : String)
    (hc : containsSub (strUtf8 c) eSentBytes = false) :
    end_fragment_offset c = ((165 + (strUtf8 c).length : Nat) : Int) := by
  rw [end_fragment_offset, start_html_offset_eq,
    show strUtf8 "<!--EndFragment-->" = eSentBytes from rfl, findSub_end_sentinel c hc]
  have h18 : ((eSentBytes.length : Nat) : Int) = 18 := by decide
  rw [h18]
  push_cast
  omega

theorem end_html_offset_eq (c : String) :
    end_html_offset c = ((179 + (strUtf8 c).length : Nat) : Int) := by
  rw [end_html_offset, start_html_offset_eq, full_html_utf8_length]
  push_cast
  omega

/-- All characters of a string are ASCII. -/
def asciiOnly (s : String) : Prop := ∀ ch ∈ s.data, ch.toNat < 128

theorem asciiOnly_append {a b : String} (ha : asciiOnly a) (hb : asciiOnly b) :
    asciiOnly (a ++ b) := by
  intro ch hch
  rw [strData_append] at hch
  rcases List.mem_append.1 hch with h | h
  · exact ha ch h
  · exact hb ch h

theorem utf8_len_of_ascii {s : String} (h : asciiOnly s) :
    (strUtf8 s).length = s.data.length :=
  utf8L_length_ascii h

theorem pyFormat010d_spec {n : Int} (h0 : 0 ≤ n) (hlt : n < 10 ^ 10) :
    (pyFormat010d n).data.length = 10 ∧ asciiOnly (pyFormat010d n) := by
  rw [pyFormat010d, if_neg (by omega)]
  have hn : n.toNat < 10 ^ 10 := by
    zify
    rwa [Int.toNat_of_nonneg h0]
  have hlen : (natDigits n.toNat).length ≤ 10 := natDigits_length_le (by omega) hn
  constructor
  · show (List.replicate (10 - (natDigits n.toNat).length) '0' ++ natDigits n.toNat).length = 10
    rw [List.length_append, List.length_replicate]
    omega
  · intro ch hch
    rcases List.mem_append.1 hch with h | h
    · rw [List.eq_of_mem_replicate h]
      decide
    · have hr := natDigitsGo_mem (by rwa [natDigits] at h)
      omega

theorem cf_header_parts :
    asciiOnly cf_version ∧ asciiOnly "\\r\\n" ∧ asciiOnly start_html_offset_marker ∧
    asciiOnly end_html_offset_marker ∧ asciiOnly start_fragment_offset_marker ∧
    asciiOnly end_fragment_offset_marker := by
  refine ⟨?_, ?_, ?_, ?_, ?_, ?_⟩
  · show ∀ ch ∈ cf_version.data, ch.toNat < 128
    decide
  · show ∀ ch ∈ ("\\r\\n" : String).data, ch.toNat < 128
    decide
  · show ∀ ch ∈ start_html_offset_marker.data, ch.toNat < 128
    decide
  · show ∀ ch ∈ end_html_offset_marker.data, ch.toNat < 128
    decide
  · show ∀ ch ∈ start_fragment_offset_marker.data, ch.toNat < 128
    decide
  · show ∀ ch ∈ end_fragment_offset_marker.data, ch.toNat < 128
    decide

theorem cf_header_spec (c : String)
    (h1 : (pyFormat010d start_html_offset).data.length = 10 ∧
      asciiOnly (pyFormat010d start_html_offset))
    (h2 : (pyFormat010d (end_html_offset c)).data.length = 10 ∧
      asciiOnly (pyFormat010d (end_html_offset c)))
    (h3 : (pyFormat010d (start_fragment_offset c)).data.length = 10 ∧
      asciiOnly (pyFormat010d (start_fragment_offset c)))
    (h4 : (pyFormat010d (end_fragment_offset c)).data.length = 10 ∧
      asciiOnly (pyFormat010d (end_fragment_offset c))) :
    (strUtf8 (cf_header c)).length = 115 := by
  obtain ⟨hp1, hp2, hp3, hp4, hp5, hp6⟩ := cf_header_parts
  have hascii : asciiOnly (cf_header c) := by
    rw [cf_header]
    exact asciiOnly_append (asciiOnly_append (asciiOnly_append (asciiOnly_append
      (asciiOnly_append (asciiOnly_append (asciiOnly_append (asciiOnly_append
      (asciiOnly_append (asciiOnly_append (asciiOnly_append (asciiOnly_append
      (asciiOnly_append hp1 hp2) hp3) h1.2) hp2) hp4) h2.2) hp2) hp5) h3.2) hp2) hp6)
      h4.2) hp2
  rw [utf8_len_of_ascii hascii, cf_header]
  simp only [strData_append, List.length_append]
  have e1 : cf_version.data.length = 11 := by decide
  have e2 : ("\\r\\n" : String).data.length = 4 := by decide
  have e3 : start_html_offset_marker.data.length = 10 := by decide
  have e4 : end_html_offset_marker.data.length = 8 := by decide
  have e5 : start_fragment_offset_marker.data.length = 14 := by decide
  have e6 : end_fragment_offset_marker.data.length = 12 := by decide
  rw [e1, e2, e3, e4, e5, e6, h1.1, h2.1, h3.1, h4.1]

/-- The C1 payload properties claimed of `_prepare_cf_html` for a
fragment `c`: the header measured with placeholder offsets (StartHTML)
equals the real header's byte length; the four offset fields are 10
digits wide; `[StartHTML, EndHTML)` is exactly the UTF-8 encoding of the
wrapped document; StartFragment points at the opening sentinel,
EndFragment at the end of the closing sentinel; and the bytes strictly
between the sentinels are exactly the UTF-8 encoding of the fragment. -/
def cf_html_props (c : String) : Prop :=
  ((strUtf8 (cf_header c)).length : Int) = start_html_offset ∧
  (pyFormat010d start_html_offset).data.length = 10 ∧
  (pyFormat010d (end_html_offset c)).data.length = 10 ∧
  (pyFormat010d (start_fragment_offset c)).data.length = 10 ∧
  (pyFormat010d (end_fragment_offset c)).data.length = 10 ∧
  (prepare_cf_html c).drop start_html_offset.toNat = full_html_utf8 c ∧
  end_html_offset c = ((prepare_cf_html c).length : Int) ∧
  ((prepare_cf_html c).drop (start_fragment_offset c).toNat).take 20 =
    strUtf8 "<!--StartFragment-->" ∧
  ((prepare_cf_html c).drop ((end_fragment_offset c).toNat - 18)).take 18 =
    strUtf8 "<!--EndFragment-->" ∧
  ((prepare_cf_html c).drop ((start_fragment_offset c).toNat + 20)).take
      ((end_fragment_offset c).toNat - 18 - ((start_fragment_offset c).toNat + 20)) =
    strUtf8 c

/-- Claim C1 (amended): for every fragment whose UTF-8 bytes do not
contain the EndFragment sentinel, and whose payload is small enough that
every offset fits in ten digits, `_prepare_cf_html` satisfies all the
claimed payload properties. -/
theorem c1_prepare_cf_html (c : String)
    (hc : containsSub (strUtf8 c) (strUtf8 "<!--EndFragment-->") = false)
    (hsize : end_html_offset c < 10 ^ 10) :
    cf_html_props c := by
  have hcE : containsSub (strUtf8 c) eSentBytes = false := hc
  have hsf := start_fragment_offset_eq c
  have hef := end_fragment_offset_eq c hcE
  have heh := end_html_offset_eq c
  have hpow : ((10 ^ 10 : Nat) : Int) = 10 ^ 10 := by
    push_cast
  have hL10 : 179 + (strUtf8 c).length < 10 ^ 10 := by
    have hx := hsize
    rw [heh, ← hpow] at hx
    exact_mod_cast hx
  have hpad1 := pyFormat010d_spec (n := start_html_offset)
    (by rw [start_html_offset_eq]; decide) (by rw [start_html_offset_eq]; decide)
  have hpad2 := pyFormat010d_spec (n := end_html_offset c)
    (by rw [heh]; exact Int.natCast_nonneg _) hsize
  have hpad3 := pyFormat010d_spec (n := start_fragment_offset c)
    (by rw [hsf]; decide) (by rw [hsf]; decide)
  have hpad4 := pyFormat010d_spec (n := end_fragment_offset c)
    (by rw [hef]; exact Int.natCast_nonneg _)
    (by rw [hef, ← hpow]; exact_mod_cast (by omega : 165 + (strUtf8 c).length < 10 ^ 10))
  have hhead := cf_header_spec c hpad1 hpad2 hpad3 hpad4
  have hsfn : (start_fragment_offset c).toNat = 127 := by
    rw [hsf]
    rfl
  have hefn : (end_fragment_offset c).toNat = 165 + (strUtf8 c).length := by
    rw [hef]
    omega
  refine ⟨?_, hpad1.1, hpad2.1, hpad3.1, hpad4.1, ?_, ?_, ?_, ?_, ?_⟩
  · rw [hhead, start_html_offset_eq]
    rfl
  · rw [show start_html_offset.toNat = (strUtf8 (cf_header c)).length from by rw [hhead]; decide]
    rw [prepare_cf_html]
    exact List.drop_left _ _
  · rw [heh, prepare_cf_html, List.length_append, hhead, full_html_utf8_length]
    push_cast
    omega
  · rw [hsfn,
      show prepare_cf_html c = (strUtf8 (cf_header c) ++ preBytes) ++
        (sSentBytes ++ (strUtf8 c ++ (eSentBytes ++ postBytes))) from by
          rw [prepare_cf_html, full_html_utf8_decomp]
          simp [List.append_assoc],
      show (127 : Nat) = (strUtf8 (cf_header c) ++ preBytes).length from by
        rw [List.length_append, hhead]
        decide,
      List.drop_left,
      show (20 : Nat) = sSentBytes.length from by decide,
      List.take_left]
    rfl
  · rw [hefn,
      show prepare_cf_html c = (strUtf8 (cf_header c) ++ preBytes ++ sSentBytes ++ strUtf8 c) ++
        (eSentBytes ++ postBytes) from by
          rw [prepare_cf_html, full_html_utf8_decomp]
          simp [List.append_assoc],
      show 165 + (strUtf8 c).length - 18 =
          (strUtf8 (cf_header c) ++ preBytes ++ sSentBytes ++ strUtf8 c).length from by
        simp only [List.length_append]
        rw [hhead]
        have d1 : preBytes.length = 12 := by decide
        have d2 : sSentBytes.length = 20 := by decide
        omega,
      List.drop_left,
      show (18 : Nat) = eSentBytes.length from by decide,
      List.take_left]
    rfl
  · rw [hsfn, hefn,
      show prepare_cf_html c = (strUtf8 (cf_header c) ++ preBytes ++ sSentBytes) ++
        (strUtf8 c ++ (eSentBytes ++ postBytes)) from by
          rw [prepare_cf_html, full_html_utf8_decomp]
          simp [List.append_assoc],
      show (127 : Nat) + 20 = (strUtf8 (cf_header c) ++ preBytes ++ sSentBytes).length from by
        simp only [List.length_append]
        rw [hhead]
        have d1 : preBytes.length = 12 := by decide
        have d2 : sSentBytes.length = 20 := by decide
        omega,
      List.drop_left]
    rw [show 165 + (strUtf8 c).length - 18 -
        (strUtf8 (cf_header c) ++ preBytes ++ sSentBytes).length = (strUtf8 c).length from by
      simp only [List.length_append]
      rw [hhead]
      have d1 : preBytes.length = 12 := by decide
      have d2 : sSentBytes.length = 20 := by decide
      omega]
    exact List.take_left _ _

/-- Claim C1 counterexample: for the fragment consisting of the literal
EndFragment sentinel text, the byte-level `find` used by
`_prepare_cf_html` locates the copy inside the fragment, so the claimed
payload properties fail as stated (the region between the sentinels is
empty instead of the fragment). -/
theorem c1_prepare_cf_html_counterexample : ¬ cf_html_props "<!--EndFragment-->" :=
  fun h => absurd h.2.2.2.2.2.2.2.2.2 (by decide)

theorem c1_prepare_cf_html_witness :
    containsSub (strUtf8 "Hi") (strUtf8 "<!--EndFragment-->") = false ∧
    end_html_offset "Hi" < 10 ^ 10 ∧ cf_html_props "Hi" :=
  ⟨by decide, by decide, c1_prepare_cf_html "Hi" (by decide) (by decide)⟩
